import Mathlib

set_option linter.unusedVariables false

/-!
Verification development for the Resume-Parser backend.

The JavaScript sources are shallowly embedded as executable Lean
functions over `List Char` / `String`.  Regex-based heuristics are
translated by hand into deterministic scanners that follow the
leftmost-match, greedy-with-backtracking semantics of the JavaScript
regular-expression engine on the ASCII fragment the code works with.
-/

namespace ResumeSpec

abbrev Chars := List Char

/-! Character classes of the JavaScript regexes (ASCII fragment). -/

/-- JavaScript whitespace class matcher (ASCII fragment of the regex class). -/
def jsWS (c : Char) : Bool :=
  c = ' ' || c = '\t' || c = '\n' || c = '\r' || c = '\x0b' || c = '\x0c'

/-- JavaScript word-character class, as used by the word-boundary assertion. -/
def jsWordChar (c : Char) : Bool :=
  c.isAlphanum || c = '_'

/-- Case-insensitive prefix test, mirroring a case-insensitive literal
regex fragment matched at the current position. -/
def ciPref : Chars → Chars → Bool
  | [], _ => true
  | _ :: _, [] => false
  | a :: as, b :: bs => (a.toLower = b.toLower) && ciPref as bs

/-- Case-sensitive prefix test. -/
def litPref : Chars → Chars → Bool
  | [], _ => true
  | _ :: _, [] => false
  | a :: as, b :: bs => (a = b) && litPref as bs

/-- JavaScript `String.prototype.includes` (substring containment). -/
def jsIncludes (pat : Chars) : Chars → Bool
  | [] => pat.isEmpty
  | c :: tl => litPref pat (c :: tl) || jsIncludes pat tl

/-- Case-insensitive substring containment (used where the source lowercases
both sides before calling `includes`). -/
def ciIncludes (pat : Chars) : Chars → Bool
  | [] => pat.isEmpty
  | c :: tl => ciPref pat (c :: tl) || ciIncludes pat tl

/-- JavaScript `String.prototype.trim` on the ASCII fragment. -/
def trimJS (l : Chars) : Chars :=
  ((l.dropWhile jsWS).reverse.dropWhile jsWS).reverse

/-- JavaScript `text.split('\n')` (keeps empty pieces). -/
def splitLines : Chars → List Chars
  | [] => [[]]
  | c :: tl =>
    if c = '\n' then [] :: splitLines tl
    else
      match splitLines tl with
      | [] => [[c]]
      | h :: t => (c :: h) :: t

/-- Generic leftmost scan: try the position matcher at every position,
left to right, returning the first hit (the JS engine's leftmost rule). -/
def scanOpt (f : Chars → Option Chars) : Chars → Option Chars
  | [] => f []
  | c :: tl =>
    match f (c :: tl) with
    | some m => some m
    | none => scanOpt f tl

/-! ## Email extraction

Embeds `extractEmail` (utils/universalPdfParser.js, "Universal email
extraction"): first match of
`/[a-zA-Z0-9._%+-]+@[a-zA-Z0-9.-]+\.[a-zA-Z]{2,}/`. -/

def emailLocalChar (c : Char) : Bool :=
  c.isAlphanum || c = '.' || c = '_' || c = '%' || c = '+' || c = '-'

def emailDomainChar (c : Char) : Bool :=
  c.isAlphanum || c = '.' || c = '-'

/-- Backtracking over the greedy domain run of the email regex: the engine
keeps the longest prefix of the maximal `[a-zA-Z0-9.-]` run that is followed
by a literal dot and at least two letters.  `d` is the maximal run, `rest`
the text after it; the `Nat` argument is the prefix length currently tried. -/
def emailDomBT (d rest : Chars) : Nat → Option Chars
  | 0 => none
  | Nat.succ k =>
    let tail := d.drop (Nat.succ k) ++ rest
    if tail.head? = some '.' then
      let ls := (tail.drop 1).takeWhile Char.isAlpha
      if 2 ≤ ls.length then some (d.take (Nat.succ k) ++ '.' :: ls)
      else emailDomBT d rest k
    else emailDomBT d rest k

/-- Attempt the email regex anchored at the current position. -/
def emailMatchAt (l : Chars) : Option Chars :=
  let loc := l.takeWhile emailLocalChar
  if loc.isEmpty then none
  else
    let r := l.drop loc.length
    if r.head? = some '@' then
      let d := (r.drop 1).takeWhile emailDomainChar
      (emailDomBT d ((r.drop 1).drop d.length) d.length).map fun dm => loc ++ '@' :: dm
    else none

/-- Embeds `extractEmail`: the first (leftmost) match of the email regex,
or the empty string when there is no match. -/
def extractEmail (text : String) : String :=
  ((scanOpt emailMatchAt text.data).getD []).asString

/-! ## Years-of-experience extraction

Embeds `extractYearsOfExperience` (utils/universalPdfParser.js; the same two
patterns appear verbatim in routes/resumeRoutes.js `parseResumeText`):
pattern 1 `/(\d+)\+?\s*(?:years?|yrs?)\s*(?:of\s*)?(?:experience|exp)/i`,
pattern 2 `/(?:experience|exp)[:\s]*(\d+)\+?\s*(?:years?|yrs?)/i`. -/

/-- Rests of the input after matching `(?:years?|yrs?)` case-insensitively,
in the engine's preference order (greedy optional `s` first). -/
def yearsUnitRests (l : Chars) : List Chars :=
  if ciPref ['y', 'e', 'a', 'r'] l then
    let r := l.drop 4
    if ciPref ['s'] r then [r.drop 1, r] else [r]
  else if ciPref ['y', 'r'] l then
    let r := l.drop 2
    if ciPref ['s'] r then [r.drop 1, r] else [r]
  else []

/-- Continuation of pattern 1 after the unit word:
`\s*(?:of\s*)?(?:experience|exp)`. -/
def yearsTailOk (l : Chars) : Bool :=
  let r := l.dropWhile jsWS
  let expAt : Chars → Bool := fun m =>
    ciPref ("experience".data) m || ciPref ("exp".data) m
  if ciPref ("of".data) r then
    expAt ((r.drop 2).dropWhile jsWS) || expAt r
  else expAt r

/-- Pattern 1 of the years regex, anchored at the current position;
returns the digits of capture group 1 on success. -/
def yearsP1At (l : Chars) : Option Chars :=
  let ds := l.takeWhile Char.isDigit
  if ds.isEmpty then none
  else
    let r0 := l.drop ds.length
    let r1 := if r0.head? = some '+' then r0.drop 1 else r0
    let r2 := r1.dropWhile jsWS
    if (yearsUnitRests r2).any yearsTailOk then some ds else none

/-- Continuation of pattern 2 after the `experience`/`exp` keyword:
`[:\s]*(\d+)\+?\s*(?:years?|yrs?)`. -/
def yearsP2From (m : Chars) : Option Chars :=
  let r0 := m.dropWhile fun c => c = ':' || jsWS c
  let ds := r0.takeWhile Char.isDigit
  if ds.isEmpty then none
  else
    let r1 := r0.drop ds.length
    let r2 := if r1.head? = some '+' then r1.drop 1 else r1
    let r3 := r2.dropWhile jsWS
    if (yearsUnitRests r3).isEmpty then none else some ds

/-- Pattern 2 of the years regex, anchored at the current position
(the alternation backtracks from `experience` to `exp`). -/
def yearsP2At (l : Chars) : Option Chars :=
  if ciPref ("experience".data) l then
    match yearsP2From (l.drop 10) with
    | some ds => some ds
    | none => if ciPref ("exp".data) l then yearsP2From (l.drop 3) else none
  else if ciPref ("exp".data) l then yearsP2From (l.drop 3)
  else none

/-- Embeds `extractYearsOfExperience`: first pattern that matches wins, and
the digits of its group 1 are suffixed with a literal `" years"`. -/
def extractYearsOfExperience (text : String) : String :=
  match scanOpt yearsP1At text.data with
  | some ds => ds.asString ++ " years"
  | none =>
    match scanOpt yearsP2At text.data with
    | some ds => ds.asString ++ " years"
    | none => ""

/-! ## Skills extraction

Embeds `extractSkills` (utils/universalPdfParser.js, "Universal skills
extraction"): every vocabulary keyword is tested with
`new RegExp('\\b' + escaped + '\\b', 'i')` and the hits are joined
with `', '`. -/

/-- Word-boundary assertion of the JS engine at position `i` of `tx`:
exactly one of the characters around the position is a word character. -/
def boundaryAt (tx : Chars) (i : Nat) : Bool :=
  (if i = 0 then false else jsWordChar (tx.getD (i - 1) ' ')) !=
    jsWordChar (tx.getD i ' ')

/-- Case-insensitive whole-word occurrence of the literal `sk` in `tx`,
i.e. `\b<sk>\b` with the `i` flag. -/
def wordMatch (sk tx : Chars) : Bool :=
  (List.range (tx.length + 1)).any fun i =>
    ciPref sk (tx.drop i) && boundaryAt tx i && boundaryAt tx (i + sk.length)

/-- The flattened static skill vocabulary of `extractSkills`, in source
order (programming, web, database, cloud, tools, data, business, soft).
Note that `Docker` and `Kubernetes` are listed both under cloud and under
tools, exactly as in the source. -/
def skillVocabulary : List String :=
  ["JavaScript", "Python", "Java", "C++", "C#", "PHP", "Ruby", "Go", "Swift",
   "Kotlin", "R", "MATLAB", "Scala", "Rust", "TypeScript", "Dart", "Perl",
   "Lua", "Haskell", "Clojure",
   "HTML", "CSS", "React", "Angular", "Vue", "Node.js", "Express", "Django",
   "Flask", "Spring", "Laravel", "Rails", "FastAPI", "Next.js", "Nuxt.js",
   "Svelte", "Ember", "jQuery", "Bootstrap", "Tailwind",
   "SQL", "MySQL", "PostgreSQL", "MongoDB", "Redis", "Elasticsearch",
   "Cassandra", "DynamoDB", "SQLite", "Oracle", "SQL Server", "MariaDB",
   "CouchDB", "Neo4j", "InfluxDB",
   "AWS", "Azure", "Google Cloud", "Heroku", "DigitalOcean", "Linode",
   "Vercel", "Netlify", "Firebase", "Supabase", "Cloudflare", "Docker",
   "Kubernetes", "Terraform", "Ansible",
   "Git", "GitHub", "GitLab", "Jenkins", "CI/CD", "Jira", "Confluence",
   "Slack", "Trello", "Figma", "VS Code", "IntelliJ", "Eclipse", "Postman",
   "Swagger", "Docker", "Kubernetes",
   "Machine Learning", "AI", "Data Science", "Analytics", "Statistics",
   "Pandas", "NumPy", "TensorFlow", "PyTorch", "Scikit-learn", "Keras",
   "OpenCV", "NLTK", "SpaCy",
   "Sales", "Business Development", "Account Management",
   "Customer Relations", "Lead Generation", "CRM", "Salesforce", "HubSpot",
   "Marketing", "Project Management", "Agile", "Scrum",
   "Communication", "Leadership", "Team Management", "Problem Solving",
   "Analytical", "Time Management", "Presentation", "Public Speaking",
   "Negotiation", "Customer Service", "Collaboration"]

/-- The filtered hit list of `extractSkills` (before joining). -/
def foundSkills (text : String) : List String :=
  skillVocabulary.filter fun sk => wordMatch sk.data text.data

/-- Embeds `extractSkills`: the hits joined with a comma and a space. -/
def extractSkills (text : String) : String :=
  String.intercalate ", " (foundSkills text)

/-! ## Section-heading matcher

Common shape of the section regexes:
`/(?:Key1|Key2|…)[:\s]*(.+?)(?=Stop1|…|$)/is`. -/

/-- Helper for lists of string literals. -/
def strs (l : List String) : List Chars :=
  l.map String.data

/-- Lazy body `(.+?)` under the lookahead `(?=Stop1|…|$)` in dot-all mode:
at least one character, extended one character at a time until a stop word
matches case-insensitively at the next position, or the input ends. -/
def takeUntilStop (stops : List Chars) : Chars → Chars
  | [] => []
  | c :: tl =>
    c :: (if stops.any fun s => ciPref s tl then [] else takeUntilStop stops tl)

/-- Continuation of a section regex after its heading keyword:
greedy `[:\s]*`, then the lazy body.  When the separator run reaches the end
of the input the engine backtracks one separator character into the body. -/
def sectionRest (stops : List Chars) (after : Chars) : Option Chars :=
  let w := after.takeWhile fun c => c = ':' || jsWS c
  let body := after.drop w.length
  if body.isEmpty then
    if w.isEmpty then none else some (after.drop (w.length - 1))
  else some (takeUntilStop stops body)

/-- Try each heading keyword, in alternation order, at the current position;
a keyword whose continuation fails backtracks to the next keyword. -/
def sectionAt (keys stops : List Chars) (l : Chars) : Option Chars :=
  match keys with
  | [] => none
  | k :: ks =>
    if ciPref k l then
      match sectionRest stops (l.drop k.length) with
      | some g => some g
      | none => sectionAt ks stops l
    else sectionAt ks stops l

/-- Leftmost match of a section regex; returns capture group 1. -/
def sectionScan (keys stops : List Chars) (l : Chars) : Option Chars :=
  scanOpt (fun m => sectionAt keys stops m) l

/-- Post-processing `match[1].trim().split('\n').slice(0, k).join(' ')`. -/
def sliceJoin (k : Nat) (g : Chars) : Chars :=
  List.intercalate [' '] ((splitLines (trimJS g)).take k)

/-! ## Experience and summary sections (universal text-based parser) -/

def experienceStops : List Chars :=
  strs ["Education", "Skills", "Projects", "Languages", "Certifications",
        "References"]

def experienceKeys1 : List Chars :=
  strs ["PROFESSIONAL EXPERIENCE", "Professional Experience", "Experience",
        "Work History", "Employment", "Work Experience", "Career",
        "Employment History", "Professional Background"]

def experienceKeys2 : List Chars := strs ["EXPERIENCE", "Experience"]

def experienceKeys3 : List Chars := strs ["WORK EXPERIENCE", "Work Experience"]

def experienceKeys4 : List Chars := strs ["EMPLOYMENT", "Employment"]

def experienceKeys5 : List Chars := strs ["CAREER", "Career"]

/-- Embeds `extractExperience` (universal text-based parser): five section
patterns tried in order, each keeping the first 30 lines of the section. -/
def extractExperience (text : String) : String :=
  let t := text.data
  match sectionScan experienceKeys1 experienceStops t with
  | some g => (sliceJoin 30 g).asString
  | none =>
    match sectionScan experienceKeys2 experienceStops t with
    | some g => (sliceJoin 30 g).asString
    | none =>
      match sectionScan experienceKeys3 experienceStops t with
      | some g => (sliceJoin 30 g).asString
      | none =>
        match sectionScan experienceKeys4 experienceStops t with
        | some g => (sliceJoin 30 g).asString
        | none =>
          match sectionScan experienceKeys5 experienceStops t with
          | some g => (sliceJoin 30 g).asString
          | none => ""

def summaryKeys1 : List Chars :=
  strs ["SUMMARY", "Summary", "PROFILE", "Profile", "OBJECTIVE", "Objective",
        "ABOUT", "About", "PROFESSIONAL SUMMARY", "Professional Summary"]

def summaryStops1 : List Chars :=
  strs ["Experience", "Work", "Skills", "Professional", "Employment",
        "Education"]

def summaryKeys2 : List Chars :=
  strs ["BUSINESS DEVELOPMENT", "Business Development"]

def summaryStops2 : List Chars :=
  strs ["AREAS OF EXPERTISE", "Experience", "Work", "Skills", "Professional",
        "Employment", "Education"]

/-- Embeds `extractSummary` (universal text-based parser): two section
patterns, each keeping the first 5 lines of the section. -/
def extractSummary (text : String) : String :=
  let t := text.data
  match sectionScan summaryKeys1 summaryStops1 t with
  | some g => (sliceJoin 5 g).asString
  | none =>
    match sectionScan summaryKeys2 summaryStops2 t with
    | some g => (sliceJoin 5 g).asString
    | none => ""

/-! ## Location extraction

Embeds `extractLocation` (universal text-based parser): five patterns, the
first two case-sensitive capitalised word chains ending in a state code
(with or without a zip code), the next two case-insensitive variants, the
last a country-name alternation. -/

/-- A word `[A-Z][a-z]+` (or its case-insensitive variant) at the current
position: one character in class `f`, then a maximal nonempty run in class
`r`.  Returns the word and the rest of the input. -/
def classWordAt (f r : Char → Bool) : Chars → Option (Chars × Chars)
  | [] => none
  | c :: tl =>
    if f c && !(tl.takeWhile r).isEmpty then
      some (c :: tl.takeWhile r, tl.drop (tl.takeWhile r).length)
    else none

/-- One `\s+<word>` step of a word chain. -/
def wsWordAt (f r : Char → Bool) (l : Chars) : Option (Chars × Chars) :=
  if (l.takeWhile jsWS).isEmpty then none
  else
    match classWordAt f r (l.dropWhile jsWS) with
    | some (wd, rest) => some (l.takeWhile jsWS ++ wd, rest)
    | none => none

theorem classWordAt_shrink {f r : Char → Bool} {l wd rest : Chars}
    (h : classWordAt f r l = some (wd, rest)) : rest.length < l.length := by
  cases l with
  | nil => simp [classWordAt] at h
  | cons c tl =>
    simp only [classWordAt] at h
    split at h
    · cases h
      simp only [List.length_cons, List.length_drop]
      omega
    · simp at h

theorem wsWordAt_shrink {f r : Char → Bool} {l pre rest : Chars}
    (h : wsWordAt f r l = some (pre, rest)) : rest.length < l.length := by
  unfold wsWordAt at h
  split at h
  · simp at h
  · rename_i he
    match hc : classWordAt f r (l.dropWhile jsWS) with
    | none => rw [hc] at h; simp at h
    | some (wd, rest') =>
      rw [hc] at h
      simp only [Option.some.injEq, Prod.mk.injEq] at h
      have h1 := classWordAt_shrink hc
      have h2 : (l.dropWhile jsWS).length ≤ l.length :=
        (List.dropWhile_sublist jsWS).length_le
      have h3 : rest.length = rest'.length := by rw [h.2]
      omega

/-- Greedy chain `(?:\s+<word>)*` followed by a terminator, with the
engine's longest-chain-first backtracking: extend the chain as far as
possible, then retreat word by word until the terminator matches. -/
def chainThen (f r : Char → Bool) (term : Chars → Option Chars)
    (acc rest : Chars) : Option Chars :=
  match h : wsWordAt f r rest with
  | some (pre, rest') =>
    match chainThen f r term (acc ++ pre) rest' with
    | some res => some res
    | none => (term rest).map fun tm => acc ++ tm
  | none => (term rest).map fun tm => acc ++ tm
termination_by rest.length
decreasing_by exact wsWordAt_shrink h

/-- Terminator `,\s*[A-Z]{2}\s*\d{5}` of location pattern 1. -/
def locTerm1 (l : Chars) : Option Chars :=
  if l.head? = some ',' then
    let r1 := l.drop 1
    let w1 := r1.takeWhile jsWS
    match r1.drop w1.length with
    | a :: b :: r3 =>
      if a.isUpper && b.isUpper then
        let w2 := r3.takeWhile jsWS
        let dg := (r3.drop w2.length).take 5
        if dg.length = 5 && dg.all Char.isDigit then
          some (',' :: (w1 ++ a :: b :: (w2 ++ dg)))
        else none
      else none
    | _ => none
  else none

/-- Terminator `,\s*[A-Z]{2}` of location pattern 2. -/
def locTerm2 (l : Chars) : Option Chars :=
  if l.head? = some ',' then
    let r1 := l.drop 1
    let w1 := r1.takeWhile jsWS
    match r1.drop w1.length with
    | a :: b :: _ =>
      if a.isUpper && b.isUpper then some (',' :: (w1 ++ [a, b])) else none
    | _ => none
  else none

/-- Terminator `,\s*[A-Z][a-z]+` of location pattern 3 (case-insensitive). -/
def locTerm3 (l : Chars) : Option Chars :=
  if l.head? = some ',' then
    let r1 := l.drop 1
    let w1 := r1.takeWhile jsWS
    match classWordAt Char.isAlpha Char.isAlpha (r1.drop w1.length) with
    | some (wd, _) => some (',' :: (w1 ++ wd))
    | none => none
  else none

/-- Terminator `\s+City` of location pattern 4 (case-insensitive). -/
def locTerm4 (l : Chars) : Option Chars :=
  let w := l.takeWhile jsWS
  if w.isEmpty then none
  else
    let r := l.drop w.length
    if ciPref ("city".data) r then some (w ++ r.take 4) else none

/-- A chain pattern anchored at the current position. -/
def locPatAt (f r : Char → Bool) (term : Chars → Option Chars)
    (l : Chars) : Option Chars :=
  match classWordAt f r l with
  | some (wd, rest) => chainThen f r term wd rest
  | none => none

def locExcluded (loc : Chars) : Bool :=
  (strs ["Email", "Phone", "LinkedIn", "Profile", "Skills", "Experience"]).any
    fun w => ciIncludes w loc

def locCountries : List Chars :=
  strs ["India", "United States", "USA", "Canada", "United Kingdom", "UK",
        "Australia", "Germany", "France", "Japan", "China", "Brazil",
        "Mexico"]

/-- Country alternation of location pattern 5, at the current position. -/
def locCountryAt (l : Chars) : Option Chars :=
  match locCountries.find? fun s => ciPref s l with
  | some s => some (l.take s.length)
  | none => none

/-- A pattern's leftmost match survives only if it contains none of the
excluded words (case-insensitively); otherwise the next pattern is tried. -/
def locAccept : Option Chars → Option Chars
  | some loc => if locExcluded loc then none else some loc
  | none => none

/-- Embeds `extractLocation` (universal text-based parser). -/
def extractLocation (text : String) : String :=
  let t := text.data
  match locAccept (scanOpt (locPatAt Char.isUpper Char.isLower locTerm1) t) with
  | some loc => loc.asString
  | none =>
    match locAccept (scanOpt (locPatAt Char.isUpper Char.isLower locTerm2) t) with
    | some loc => loc.asString
    | none =>
      match locAccept (scanOpt (locPatAt Char.isAlpha Char.isAlpha locTerm3) t) with
      | some loc => loc.asString
      | none =>
        match locAccept (scanOpt (locPatAt Char.isAlpha Char.isAlpha locTerm4) t) with
        | some loc => loc.asString
        | none =>
          match locAccept (scanOpt locCountryAt t) with
          | some loc => loc.asString
          | none => ""

/-! ## Phone extraction

Embeds `extractPhone`: global matches of `/(\+?[\d\s\-\(\)\.]{7,})/g`,
filtered to 7–15 digits, preferring a match that starts with `+` or has at
least 10 digits. -/

def phoneClass (c : Char) : Bool :=
  c.isDigit || jsWS c || c = '-' || c = '(' || c = ')' || c = '.'

/-- All (non-overlapping, leftmost, greedy) matches of the phone regex.
The `Nat` argument skips over the characters of an emitted match. -/
def phoneScanGo : Nat → Chars → List Chars
  | _, [] => []
  | Nat.succ skip, _ :: tl => phoneScanGo skip tl
  | 0, c :: tl =>
    if c = '+' then
      let run := tl.takeWhile phoneClass
      if 7 ≤ run.length then ('+' :: run) :: phoneScanGo run.length tl
      else phoneScanGo 0 tl
    else if phoneClass c then
      let run := tl.takeWhile phoneClass
      if 6 ≤ run.length then (c :: run) :: phoneScanGo run.length tl
      else phoneScanGo 0 tl
    else phoneScanGo 0 tl

def phoneScan (l : Chars) : List Chars :=
  phoneScanGo 0 l

/-- Number of digits after `replace(/\D/g, '')`. -/
def digitCount (p : Chars) : Nat :=
  (p.filter Char.isDigit).length

/-- Embeds `extractPhone` (universal text-based parser). -/
def extractPhone (text : String) : String :=
  let ms := phoneScan text.data
  let validPhones := ms.filter fun p =>
    7 ≤ digitCount p && digitCount p ≤ 15
  match validPhones with
  | [] => ""
  | p0 :: _ =>
    match validPhones.find? fun p => p.head? = some '+' || 10 ≤ digitCount p with
    | some p => p.asString
    | none => p0.asString

/-! ## Name extraction (universal text-based parser) -/

/-- Maximal whitespace-separated tokens of a line. -/
def wsTokensAux : Chars → Chars → List Chars
  | [], acc => if acc.isEmpty then [] else [acc.reverse]
  | c :: tl, acc =>
    if jsWS c then
      if acc.isEmpty then wsTokensAux tl []
      else acc.reverse :: wsTokensAux tl []
    else wsTokensAux tl (c :: acc)

def wsTokens (l : Chars) : List Chars :=
  wsTokensAux l []

/-- A proper-case word `[A-Z][a-z]+`. -/
def properWord (w : Chars) : Bool :=
  match w with
  | c :: rest => c.isUpper && !rest.isEmpty && rest.all Char.isLower
  | [] => false

/-- An all-caps word `[A-Z]+`. -/
def capsWord (w : Chars) : Bool :=
  !w.isEmpty && w.all Char.isUpper

/-- Anchored pattern `^W(?:\s+W){1,3}$`: 2 to 4 words of shape `W`,
separated by whitespace, with no leading or trailing whitespace. -/
def anchoredWords (p : Chars → Bool) (line : Chars) : Bool :=
  !line.isEmpty && !jsWS (line.getD 0 ' ') && !jsWS (line.getLastD ' ') &&
    (let ts := wsTokens line
     2 ≤ ts.length && ts.length ≤ 4 && ts.all p)

/-- JavaScript `replace(/\b\w/g, l => l.toUpperCase())`. -/
def capWordStartsAux : Option Char → Chars → Chars
  | _, [] => []
  | prev, c :: tl =>
    let boundary := match prev with
      | none => true
      | some p => !jsWordChar p
    (if jsWordChar c && boundary then c.toUpper else c) ::
      capWordStartsAux (some c) tl

def capWordStarts (l : Chars) : Chars :=
  capWordStartsAux none l

def nameExcluded : List Chars :=
  strs ["LINKEDIN", "PROFILE", "EMAIL", "PHONE", "ADDRESS", "RESUME",
        "CURRICULUM", "VITAE", "CONTACT", "INFORMATION", "BUSINESS",
        "DEVELOPMENT", "PROFESSIONAL", "EXPERIENCE", "OBJECTIVE", "SUMMARY",
        "SKILLS", "EDUCATION"]

/-- Strategy 1 of `extractName`: scan the first lines for a proper-case or
all-caps 2–4 word line. -/
def nameFromLines : List Chars → Option Chars
  | [] => none
  | line :: rest =>
    if anchoredWords properWord line && line.length < 50 then some line
    else if anchoredWords capsWord line &&
        !(nameExcluded.any fun w => jsIncludes w line) then
      some (capWordStarts (line.map Char.toLower))
    else nameFromLines rest

/-- Embeds `extractName` (universal text-based parser): line strategies on
the first 10 lines, then a fallback derived from the email local part. -/
def extractName (text : String) (lines : List Chars) : Chars :=
  match nameFromLines (lines.take 10) with
  | some n => n
  | none =>
    match scanOpt emailMatchAt text.data with
    | some m =>
      let en := m.takeWhile fun c => c ≠ '@'
      if 2 < en.length then
        capWordStarts (en.map fun c =>
          if c = '.' || c = '_' || c = '-' then ' ' else c)
      else []
    | none => []

/-! ## LinkedIn URL and current job title -/

/-- Match `/linkedin\.com\/in\/[a-zA-Z0-9\-_]+/i` at the current position. -/
def linkedinAt (l : Chars) : Option Chars :=
  if ciPref ("linkedin.com/in/".data) l then
    let run := (l.drop 16).takeWhile fun c => c.isAlphanum || c = '-' || c = '_'
    if run.isEmpty then none else some (l.take (16 + run.length))
  else none

/-- Embeds `extractLinkedIn`: prefix the first match with `https://`. -/
def extractLinkedIn (text : String) : String :=
  match scanOpt linkedinAt text.data with
  | some m => "https://" ++ m.asString
  | none => ""

def jobTitleAlts : List Chars :=
  strs ["Backend Developer", "Frontend Developer", "Full Stack Developer",
        "Software Developer", "Web Developer", "Data Scientist",
        "Machine Learning Engineer", "Business Development Manager",
        "Account Executive", "Manager", "Director", "Senior", "Lead",
        "Principal", "Engineer", "Analyst", "Consultant", "Specialist"]

/-- Title alternation followed by `[^,\n]*`, at the current position. -/
def jobTitleAt (l : Chars) : Option Chars :=
  match jobTitleAlts.find? fun a => ciPref a l with
  | some a =>
    some (l.take a.length ++
      (l.drop a.length).takeWhile fun c => c ≠ ',' && c ≠ '\n')
  | none => none

/-- Embeds `extractCurrentJobTitle` (universal text-based parser). -/
def extractCurrentJobTitle (text : String) : String :=
  match scanOpt jobTitleAt text.data with
  | some m => (trimJS m).asString
  | none => ""

/-! ## The candidate record and the universal text-based parser -/

/-- The CandidateRecord data model.  `parsingMethod` is optional because
several code paths return objects without that key. -/
structure CandidateRecord where
  name : String := ""
  email : String := ""
  phone : String := ""
  skills : String := ""
  education : String := ""
  experience : String := ""
  location : String := ""
  linkedinUrl : String := ""
  expectedSalary : String := ""
  summary : String := ""
  areasOfExpertise : String := ""
  qualifications : String := ""
  languages : String := ""
  currentJobTitle : String := ""
  yearsOfExperience : String := ""
  resumeText : String := ""
  parsingMethod : Option String := none
deriving DecidableEq, Repr

/-- JavaScript `String.prototype.trim` on `String`. -/
def jsTrim (s : String) : String :=
  (trimJS s.data).asString

/-- Nonempty trimmed lines of the input, as computed by the parser. -/
def linesOf (text : String) : List Chars :=
  ((splitLines text.data).map trimJS).filter fun l => !l.isEmpty

/-- Embeds `parseResumeText` (utils/universalPdfParser.js, "Universal
text-based parsing with advanced pattern recognition"): the function called
by `parseResumeUniversally` on the directly extracted PDF text. -/
def parseResumeText (text : String) : CandidateRecord :=
  let lines := linesOf text
  { name := jsTrim (extractName text lines).asString
    email := jsTrim (extractEmail text)
    phone := jsTrim (extractPhone text)
    skills := jsTrim (extractSkills text)
    education := ""
    experience := jsTrim (extractExperience text)
    location := jsTrim (extractLocation text)
    linkedinUrl := jsTrim (extractLinkedIn text)
    expectedSalary := ""
    summary := jsTrim (extractSummary text)
    areasOfExpertise := jsTrim (extractSkills text)
    qualifications := ""
    languages := ""
    currentJobTitle := jsTrim (extractCurrentJobTitle text)
    yearsOfExperience := jsTrim (extractYearsOfExperience text)
    resumeText := text
    parsingMethod := none }

/-! ## The main parsing entry point used by the upload route

Embeds `parseResumeUniversally` (utils/universalPdfParser.js).  The external
collaborators are modelled as inputs: whether the OpenAI client was
initialised, the outcome of `parseResumeWithAI` (`none` models a throw), and
the outcome of the `pdf-parse` text extraction (`none` models a throw). -/

structure UploadEnv where
  /-- Whether the OpenAI client was initialised (API key present). -/
  openaiAvailable : Bool
  /-- Result of `parseResumeWithAI pdfPath`; `none` models a thrown error. -/
  aiResult : Option CandidateRecord
  /-- Text extracted by `pdf-parse`; `none` models a thrown error. -/
  pdfParseText : Option String
  /-- Record id produced by the persistence layer for this upload. -/
  newCandidateId : String
deriving Repr

/-- The all-empty record returned by `parseResumeUniversally` when text
extraction yields at most 50 characters; note that it carries no
`parsingMethod` field. -/
def minimalRecord (extractedText : String) : CandidateRecord :=
  { resumeText := extractedText }

/-- Embeds `parseResumeUniversally`: AI parsing first when available,
otherwise (or on AI failure) `pdf-parse` text extraction followed by
`parseResumeText`; a `pdf-parse` throw propagates as an error. -/
def parseResumeUniversally (e : UploadEnv) : Except Unit CandidateRecord :=
  let textPath : Except Unit CandidateRecord :=
    match e.pdfParseText with
    | none => Except.error ()
    | some t =>
      if 50 < (jsTrim t).length then Except.ok (parseResumeText t)
      else Except.ok (minimalRecord t)
  if e.openaiAvailable then
    match e.aiResult with
    | some r => Except.ok r
    | none => textPath
  else textPath

/-! ## Expected-salary conversion and the upload route

Embeds the salary post-processing of `router.post("/upload")`
(routes/resumeRoutes.js): `parsedData.expectedSalary.match(/\$?([\d,]+)/)`
followed by `parseInt(match[1].replace(/,/g, ''))`. -/

/-- A JavaScript number resulting from `parseInt`: either an integer or
`NaN` (which `parseInt` returns on an empty digit string). -/
inductive JsNum where
  | nan : JsNum
  | int : Nat → JsNum
deriving DecidableEq, Repr

def JsNum.isInt : JsNum → Bool
  | .int _ => true
  | .nan => false

def digOrComma (c : Char) : Bool :=
  c.isDigit || c = ','

/-- Capture group 1 of the leftmost match of `/\$?([\d,]+)/`: the maximal
run of digits and commas starting at the first such character (the optional
dollar sign does not affect the group). -/
def salaryMatchGroup (l : Chars) : Option Chars :=
  let rest := l.dropWhile fun c => !digOrComma c
  if rest.isEmpty then none else some (rest.takeWhile digOrComma)

/-- Decimal value of a digit string (`parseInt` on an all-digit string). -/
def digitsToNat (ds : Chars) : Nat :=
  ds.foldl (fun n c => 10 * n + (c.toNat - 48)) 0

/-- Embeds the `expectedSalaryValue` computation of the upload route:
`null` when the salary string is empty or the regex does not match, and
otherwise `parseInt` of the group with commas removed — which is `NaN`
when the group contains no digit. -/
def computeExpectedSalaryValue (s : String) : Option JsNum :=
  if s = "" then none
  else
    match salaryMatchGroup s.data with
    | none => none
    | some g =>
      let ds := g.filter Char.isDigit
      if ds.isEmpty then some JsNum.nan else some (JsNum.int (digitsToNat ds))

/-- The observable outcome of `router.post("/upload")`. -/
structure UploadResponse where
  status : Nat
  /-- The `parsingMethod` field of the JSON response body. -/
  parsingMethod : Option String
  candidateId : Option String
  /-- The `data` field of the JSON response body. -/
  data : Option CandidateRecord
  /-- The `Expected Salary` number passed to `addCandidate`
  (`some` exactly when the persistence call happened). -/
  persistedSalary : Option (Option JsNum)
deriving Repr

/-- Embeds `router.post("/upload")` (routes/resumeRoutes.js): parse with
`parseResumeUniversally`, convert the salary, persist, and answer 200 with
the fixed string `'Universal Parser'` as `parsingMethod`; a parsing error is
caught and answered with status 500. -/
def uploadRoute (e : UploadEnv) : UploadResponse :=
  match parseResumeUniversally e with
  | Except.error _ =>
    { status := 500, parsingMethod := none, candidateId := none,
      data := none, persistedSalary := none }
  | Except.ok parsedData =>
    let expectedSalaryValue := computeExpectedSalaryValue parsedData.expectedSalary
    { status := 200
      parsingMethod := some "Universal Parser"
      candidateId := some e.newCandidateId
      data := some parsedData
      persistedSalary := some expectedSalaryValue }

/-! ## Global regex replacement (for `cleanExtractedText`)

Leftmost, non-overlapping, greedy replacement; each matcher returns the
match length (always at least 1) at the current position. -/

def replaceAllGo (m : Chars → Option Nat) (repl : Chars) : Nat → Chars → Chars
  | _, [] => []
  | Nat.succ skip, _ :: tl => replaceAllGo m repl skip tl
  | 0, c :: tl =>
    match m (c :: tl) with
    | some n => repl ++ replaceAllGo m repl (n - 1) tl
    | none => c :: replaceAllGo m repl 0 tl

def replaceAllWith (m : Chars → Option Nat) (repl : Chars) (l : Chars) : Chars :=
  replaceAllGo m repl 0 l

/-- Matcher for a literal pattern. -/
def mLitAt (pat : Chars) (l : Chars) : Option Nat :=
  if litPref pat l then some pat.length else none

/-- Matcher for `/\d+\s+0\s+obj/`. -/
def mObjAt (l : Chars) : Option Nat :=
  let d := l.takeWhile Char.isDigit
  if d.isEmpty then none
  else
    let r1 := l.drop d.length
    let w1 := r1.takeWhile jsWS
    if w1.isEmpty then none
    else
      let r2 := r1.drop w1.length
      if r2.head? = some '0' then
        let r3 := r2.drop 1
        let w2 := r3.takeWhile jsWS
        if w2.isEmpty then none
        else if litPref ("obj".data) (r3.drop w2.length) then
          some (d.length + w1.length + 1 + w2.length + 3)
        else none
      else none

/-- Matcher for `<literal>\s+\d+` patterns such as `/Length\s+\d+/`. -/
def mLitWsDigitsAt (pat : Chars) (l : Chars) : Option Nat :=
  if litPref pat l then
    let r1 := l.drop pat.length
    let w := r1.takeWhile jsWS
    if w.isEmpty then none
    else
      let d := (r1.drop w.length).takeWhile Char.isDigit
      if d.isEmpty then none else some (pat.length + w.length + d.length)
  else none

/-- Matcher for `/Description\s+Description/`. -/
def mDescDescAt (l : Chars) : Option Nat :=
  if litPref ("Description".data) l then
    let r1 := l.drop 11
    let w := r1.takeWhile jsWS
    if w.isEmpty then none
    else if litPref ("Description".data) (r1.drop w.length) then
      some (11 + w.length + 11)
    else none
  else none

/-- Character class `[A-F0-9-]` of the DocumentID/InstanceID patterns. -/
def hexIdChar (c : Char) : Bool :=
  ('A' ≤ c && c ≤ 'F') || c.isDigit || c = '-'

/-- Matcher for `<literal>\s+[A-F0-9-]+` patterns. -/
def mLitWsHexAt (pat : Chars) (l : Chars) : Option Nat :=
  if litPref pat l then
    let r1 := l.drop pat.length
    let w := r1.takeWhile jsWS
    if w.isEmpty then none
    else
      let d := (r1.drop w.length).takeWhile hexIdChar
      if d.isEmpty then none else some (pat.length + w.length + d.length)
  else none

/-- Matcher for `<literal>[^X]*X` patterns such as `/CreationDate[^)]*\)/`. -/
def mLitUptoAt (pat : Chars) (delim : Char) (l : Chars) : Option Nat :=
  if litPref pat l then
    let r1 := l.drop pat.length
    let mid := r1.takeWhile fun c => c ≠ delim
    if (r1.drop mid.length).head? = some delim then
      some (pat.length + mid.length + 1)
    else none
  else none

/-- Matcher for `/\s+/`. -/
def mWsRunAt (l : Chars) : Option Nat :=
  let w := l.takeWhile jsWS
  if w.isEmpty then none else some w.length

/-- Matcher for `<literal>\s+\d+\s+0\s+R` patterns such as
`/^Parent\s+\d+\s+0\s+R$/`. -/
def mParentLikeAt (pat : Chars) (l : Chars) : Option Nat :=
  if litPref pat l then
    let r1 := l.drop pat.length
    let w1 := r1.takeWhile jsWS
    if w1.isEmpty then none
    else
      let r2 := r1.drop w1.length
      let d := r2.takeWhile Char.isDigit
      if d.isEmpty then none
      else
        let r3 := r2.drop d.length
        let w2 := r3.takeWhile jsWS
        if w2.isEmpty then none
        else
          let r4 := r3.drop w2.length
          if r4.head? = some '0' then
            let r5 := r4.drop 1
            let w3 := r5.takeWhile jsWS
            if w3.isEmpty then none
            else if (r5.drop w3.length).head? = some 'R' then
              some (pat.length + w1.length + d.length + w2.length + 1 +
                w3.length + 1)
            else none
          else none
  else none

/-- Matcher for `/^Type\s*\/\s*Page$/` (prefix part). -/
def mTypePageAt (l : Chars) : Option Nat :=
  if litPref ("Type".data) l then
    let r1 := l.drop 4
    let w1 := r1.takeWhile jsWS
    let r2 := r1.drop w1.length
    if r2.head? = some '/' then
      let r3 := r2.drop 1
      let w2 := r3.takeWhile jsWS
      if litPref ("Page".data) (r3.drop w2.length) then
        some (4 + w1.length + 1 + w2.length + 4)
      else none
    else none
  else none

/-- Anchored `^…$` test via a prefix matcher: the greedy parse must consume
the entire line. -/
def fullMatch (m : Chars → Option Nat) (l : Chars) : Bool :=
  m l == some l.length

/-- First replacement chain of `cleanExtractedText`
(utils/universalPdfParser.js): sixteen global replacements, whitespace
normalisation, and a trim. -/
def cleanStep1 (l : Chars) : Chars :=
  let t1 := replaceAllWith mObjAt [] l
  let t2 := replaceAllWith (mLitAt ("FlateDecode".data)) [] t1
  let t3 := replaceAllWith (mLitWsDigitsAt ("Length".data)) [] t2
  let t4 := replaceAllWith (mLitAt ("endstream".data)) [] t3
  let t5 := replaceAllWith (mLitAt ("endobj".data)) [] t4
  let t6 := replaceAllWith mDescDescAt [] t5
  let t7 := replaceAllWith (mLitWsHexAt ("DocumentID".data)) [] t6
  let t8 := replaceAllWith (mLitWsHexAt ("InstanceID".data)) [] t7
  let t9 := replaceAllWith (mLitUptoAt ("CreationDate".data) ')') [] t8
  let t10 := replaceAllWith (mLitUptoAt ("ModifyDate".data) ')') [] t9
  let t11 := replaceAllWith (mLitUptoAt ("Producer".data) ')') [] t10
  let t12 := replaceAllWith (mLitUptoAt ("xpacket".data) '>') [] t11
  let t13 := replaceAllWith (mLitUptoAt ("xmpmeta".data) '>') [] t12
  let t14 := replaceAllWith (mLitUptoAt ("xmlns".data) '>') [] t13
  let t15 := replaceAllWith (mLitUptoAt ("rdf".data) '>') [] t14
  let t16 := replaceAllWith (mLitUptoAt ("ns.adobe.com".data) '>') [] t15
  let t17 := replaceAllWith mWsRunAt [' '] t16
  trimJS t17

/-- Line filter of `cleanExtractedText`: keep a line unless its trimmed form
matches one of the artifact shapes. -/
def lineKeep (line : Chars) : Bool :=
  let tr := trimJS line
  decide (0 < tr.length) &&
  !(!tr.isEmpty && tr.all Char.isDigit) &&
  !(match tr with
    | c :: rest => c.isUpper && rest.all jsWS
    | [] => false) &&
  !(fullMatch mObjAt tr) &&
  !(tr == ("endobj".data)) &&
  !(tr == ("endstream".data)) &&
  !(tr == ("FlateDecode".data)) &&
  !(fullMatch (mLitWsDigitsAt ("Length".data)) tr) &&
  !(fullMatch mDescDescAt tr) &&
  !(fullMatch (mLitWsHexAt ("DocumentID".data)) tr) &&
  !(fullMatch (mLitWsHexAt ("InstanceID".data)) tr) &&
  !(litPref ("CreationDate".data) tr) &&
  !(litPref ("ModifyDate".data) tr) &&
  !(litPref ("Producer".data) tr) &&
  !(jsIncludes ("xpacket".data) tr) &&
  !(jsIncludes ("xmlns".data) tr) &&
  !(jsIncludes ("rdf".data) tr) &&
  !(fullMatch (mParentLikeAt ("Parent".data)) tr) &&
  !(fullMatch (mParentLikeAt ("Contents".data)) tr) &&
  !(fullMatch (mParentLikeAt ("Resources".data)) tr) &&
  !(fullMatch (mLitWsDigitsAt ("Width".data)) tr) &&
  !(fullMatch (mLitWsDigitsAt ("Height".data)) tr) &&
  !(litPref ("ColorSpace".data) tr) &&
  !(fullMatch (mLitWsDigitsAt ("BitsPerComponent".data)) tr) &&
  !(litPref ("Filter".data) tr) &&
  !(tr == ("DCTDecode".data)) &&
  !(tr == ("DeviceRGB".data)) &&
  !(litPref ("Subtype".data) tr) &&
  !(tr == ("XObject".data)) &&
  !(tr == ("Image".data)) &&
  !(tr == ("stream".data)) &&
  !(fullMatch mTypePageAt tr) &&
  !(litPref ("MediaBox".data) tr)

/-- Embeds `cleanExtractedText` (utils/universalPdfParser.js). -/
def cleanExtractedText (text : String) : String :=
  if text = "" then ""
  else
    (List.intercalate ['\n']
      ((splitLines (cleanStep1 text.data)).filter lineKeep)).asString

/-! ## The multi-strategy extraction cascade

Embeds `parseResumeUniversal` (utils/universalPdfParser.js).  The external
collaborators — `pdf-parse`, `PDF.js`, the raw-binary alternative extractor,
`parseResumeWithAI`, `parseResumeWithOCR` and `extractFromPdfStructure`
(all of which read the PDF file or call external services) — are modelled
as inputs; `none` models a throw (or a null result). -/

structure CascadeEnv where
  /-- Path of the uploaded PDF (`pdfPath`). -/
  fileName : String
  /-- Strategy 1: text returned by `pdf-parse` (`pdfData.text || ''`). -/
  s1 : Option String
  /-- Strategy 2: text returned by `extractTextWithPdfJs`. -/
  s2 : Option String
  /-- Strategy 3: text returned by `extractTextAlternative`. -/
  s3 : Option String
  /-- Record returned by `parseResumeWithAI`. -/
  ai : Option CandidateRecord
  /-- Record returned by `parseResumeWithOCR`. -/
  ocr : Option CandidateRecord
  /-- Record returned by `extractFromPdfStructure`. -/
  structRes : Option CandidateRecord
  /-- Whether the OpenAI client was initialised. -/
  openaiK : Bool
  /-- Record returned by `enhanceWithAI`. -/
  enhance : Option CandidateRecord
deriving Repr

/-- Strategy 1 keeps its text only when it is longer than 50 characters and
free of the two artifact markers checked at that point. -/
def pass1 (t : String) : Bool :=
  50 < t.length && !(jsIncludes ("0 obj".data) t.data) &&
    !(jsIncludes ("FlateDecode".data) t.data)

/-- The text-extraction phase of the cascade: the retained
`(extractedText, parsingMethod)` pair after strategies 1–3. -/
def phase1 (e : CascadeEnv) : String × String :=
  let st1 : String × String :=
    match e.s1 with
    | none => ("", "")
    | some t => if pass1 t then (t, "pdf-parse") else ("", "pdf-parse")
  let st2 : String × String :=
    if st1.1.length < 50 then
      match e.s2 with
      | some u => if st1.1.length < u.length then (u, "PDF.js") else st1
      | none => st1
    else st1
  if st2.1.length < 50 then
    match e.s3 with
    | some u => if 0 < u.length then (u, "Alternative") else st2
    | none => st2
  else st2

/-- The seventeen artifact markers of the `hasMeaningfulText` check. -/
def meaningfulMarkers : List String :=
  ["0 obj", "FlateDecode", "endobj", "endstream", "Parent 4 0 R",
   "Contents 5 0 R", "Resources 6 0 R", "Width 1691", "Height 2183",
   "ColorSpace", "BitsPerComponent", "DCTDecode", "DeviceRGB", "XObject",
   "Image", "Type/Page", "MediaBox"]

/-- Embeds the `hasMeaningfulText` condition of the cascade. -/
def hasMeaningfulText (t : String) : Bool :=
  50 < t.length &&
    meaningfulMarkers.all fun m => !(jsIncludes m.data t.data)

/-- Node's `path.basename` on POSIX paths. -/
def basenameJS (p : String) : String :=
  let l := p.data
  let noTrail := (l.reverse.dropWhile fun c => c = '/').reverse
  if noTrail.isEmpty then (if l.isEmpty then "." else "/")
  else ((noTrail.reverse.takeWhile fun c => c ≠ '/').reverse).asString

/-- The file-name test of the cascade: the lowercased base name contains
`steven` or `sales`. -/
def stevenFileHit (fileName : String) : Bool :=
  let lower := (basenameJS fileName).data.map Char.toLower
  jsIncludes ("steven".data) lower || jsIncludes ("sales".data) lower

/-- Embeds `getStevenResumeData`: the hardcoded record returned for file
names matching the steven/sales test. -/
def getStevenResumeData : CandidateRecord :=
  { name := "Steven Soricillo"
    email := "steven.soricillo@email.com"
    phone := "+1 (555) 123-4567"
    skills := "Sales, Business Development, Account Management, Customer Relations, Lead Generation, CRM, Salesforce, HubSpot, Cold Calling, Negotiation, Presentation, Public Speaking, Market Research, Client Acquisition, Revenue Generation, Pipeline Management, Territory Management, Key Account Management, Revenue Growth, Market Analysis, Import/Export Sales, Strategic Growth Planning, Partnership Development, Pricing Negotiations, Contract Negotiations, Problem Resolution"
    education := "Bachelor of Business Administration - Marketing, University of New York, 2018"
    experience := "Business Development Manager | ABC Company | New York, NY | 2020-Present\n• Increased sales revenue by 35% through strategic account management\n• Developed and maintained relationships with key clients\n• Led a team of 5 sales representatives\n• Implemented new CRM system resulting in 20% efficiency improvement\n\nSales Representative | XYZ Corp | New York, NY | 2018-2020\n• Generated $2M in new business within first year\n• Exceeded quarterly targets by 25% consistently\n• Managed portfolio of 50+ enterprise clients"
    location := "New York, NY"
    linkedinUrl := "https://linkedin.com/in/steven-soricillo"
    expectedSalary := "$85,000"
    summary := "Results-driven Business Development Manager with 5+ years of experience in sales and account management. Proven track record of increasing revenue and building strong client relationships. Expertise in CRM systems, lead generation, and strategic growth planning."
    areasOfExpertise := "Sales, Business Development, Account Management, Customer Relations, Lead Generation, CRM, Revenue Generation, Market Analysis, Strategic Planning"
    qualifications := "• 5+ years of sales experience\n• Proven track record of exceeding targets\n• Strong leadership and team management skills\n• Excellent communication and negotiation abilities\n• CRM and sales automation expertise"
    languages := "English (Native), Spanish (Conversational)"
    currentJobTitle := "Business Development Manager"
    yearsOfExperience := "5 years"
    resumeText := "Steven Soricillo - Business Development Manager with extensive sales experience"
    parsingMethod := some "Hardcoded Data" }

/-- Embeds `getFallbackData`: the all-empty record tagged `Fallback`. -/
def getFallbackData : CandidateRecord :=
  { parsingMethod := some "Fallback" }

/-- The truthiness test `aiResult && (aiResult.name || aiResult.email ||
aiResult.experience)` applied to a fallback parser's record. -/
def okCand (r : CandidateRecord) : Bool :=
  r.name != "" || r.email != "" || r.experience != ""

/-- The return value of `parseResumeUniversal`, up to the construction of
the final record: each constructor records which branch returned and with
which arguments.  `textParsed cleanText m` stands for
`{ ...parseTextIntelligently(cleanText), parsingMethod: m }` and
`enhanced r m` for `{ ...r, parsingMethod: m ++ " + AI Enhancement" }`. -/
inductive CascadeOutcome where
  | steven : CascadeOutcome
  | aiVision : CandidateRecord → CascadeOutcome
  | ocrResult : CandidateRecord → CascadeOutcome
  | fromStructure : CandidateRecord → CascadeOutcome
  | fallbackRecord : CascadeOutcome
  | enhanced : CandidateRecord → String → CascadeOutcome
  | textParsed : String → String → CascadeOutcome
deriving DecidableEq, Repr

/-- The tail of the cascade, after the image-based fallbacks: give up when
the trimmed text is shorter than 10 characters, otherwise clean the text
and parse it (with optional AI enhancement). -/
def afterTextOutcome (t m : String) (e : CascadeEnv) : CascadeOutcome :=
  if (jsTrim t).length < 10 then .fallbackRecord
  else
    let ct := cleanExtractedText t
    if e.openaiK && 50 < ct.length then
      match e.enhance with
      | some r => .enhanced r m
      | none => .textParsed ct m
    else .textParsed ct m

/-- Embeds the control flow of `parseResumeUniversal`
(utils/universalPdfParser.js, lines 25–192). -/
def parseResumeUniversal (e : CascadeEnv) : CascadeOutcome :=
  let st := phase1 e
  if !(hasMeaningfulText st.1) then
    if stevenFileHit e.fileName then .steven
    else
      match e.ai.filter okCand with
      | some r => .aiVision r
      | none =>
        match e.ocr.filter okCand with
        | some r => .ocrResult r
        | none =>
          match e.structRes.filter okCand with
          | some r => .fromStructure r
          | none => afterTextOutcome st.1 st.2 e
  else afterTextOutcome st.1 st.2 e

/-! ## Persistence adapter

Embeds utils/airtableClient.js.  The `base` handle is `none` exactly when
the API key or the base id is missing; the hosted store behind a configured
handle is external, so its data and CRUD semantics are modelled from the
spec ("a hosted tabular store (CRUD by record id)", partial updates that do
not mutate unrelated fields). -/

/-- A record's field set, as sent to and received from the store. -/
abbrev Fields := List (String × String)

structure ATRecord where
  id : String
  fields : Fields
deriving DecidableEq, Repr

/-- Modelled from the spec: the state of the hosted tabular store
(the `Candidates` table), a list of records addressed by id. -/
abbrev ATStore := List ATRecord

/-- Embeds the `base` initialisation: a handle exists only if both the API
key and the base id are present. -/
def mkBase (apiKey baseId : Option String) (store : ATStore) : Option ATStore :=
  if apiKey.isSome && baseId.isSome then some store else none

/-- First value bound to a key. -/
def lookupField (fs : Fields) (k : String) : Option String :=
  (fs.find? fun p => p.1 = k).map fun p => p.2

/-- Modelled from the spec: a partial update merges the updated fields over
the record, leaving every field not named in the update unchanged. -/
def mergeFields (orig upd : Fields) : Fields :=
  upd ++ orig.filter fun p => upd.all fun q => q.1 ≠ p.1

/-- Embeds `addCandidate`: a mock record when the store is not configured
(`'mock_' + Date.now()`; the clock value is the `now` argument), otherwise a
spec-modelled create against the external table. -/
def addCandidate (base : Option ATStore) (now : String) (fields : Fields) :
    Except String ATRecord :=
  match base with
  | none => Except.ok { id := "mock_" ++ now, fields := fields }
  | some store => Except.ok { id := "rec" ++ toString store.length, fields := fields }

/-- The mock field set returned by `getCandidate` without credentials. -/
def mockCandidateFields : Fields :=
  [("Name", "Mock Candidate"), ("Email", "mock@example.com")]

/-- Embeds `getCandidate`: mock data when unconfigured, otherwise a find by
record id that throws when the id does not exist. -/
def getCandidate (base : Option ATStore) (id : String) : Except String Fields :=
  match base with
  | none => Except.ok mockCandidateFields
  | some store =>
    match store.find? fun r => r.id = id with
    | some r => Except.ok r.fields
    | none => Except.error "NOT_FOUND"

/-- Embeds `getAllCandidates`: one mock record when unconfigured, otherwise
the full table. -/
def getAllCandidates (base : Option ATStore) : Except String (List ATRecord) :=
  match base with
  | none => Except.ok [{ id := "mock_1", fields := mockCandidateFields }]
  | some store => Except.ok store

/-- Embeds `updateCandidate`: without credentials the given fields are
echoed back (nothing is stored); otherwise a spec-modelled partial update by
record id, returning the updated field set and the new store state. -/
def updateCandidate (base : Option ATStore) (id : String) (fields : Fields) :
    Except String (Fields × Option ATStore) :=
  match base with
  | none => Except.ok (fields, none)
  | some store =>
    match store.find? fun r => r.id = id with
    | some r =>
      let merged := mergeFields r.fields fields
      Except.ok (merged,
        some (store.map fun q => if q.id = id then { q with fields := merged } else q))
    | none => Except.error "NOT_FOUND"

/-- Embeds `router.put("/candidate/:id")`: 200 with the updated fields, or
500 when the update throws.  Also returns the store state after the call. -/
def putCandidateRoute (base : Option ATStore) (id : String) (body : Fields) :
    Nat × Option Fields × Option ATStore :=
  match updateCandidate base id body with
  | Except.ok (fs, base') => (200, some fs, base')
  | Except.error _ => (500, none, base)

/-- Embeds `router.get("/candidate/:id")`: 200 with the fields, or 500. -/
def getCandidateRoute (base : Option ATStore) (id : String) :
    Nat × Option Fields :=
  match getCandidate base id with
  | Except.ok fs => (200, some fs)
  | Except.error _ => (500, none)

/-! ## Helper lemmas -/

theorem takeWhile_append_all {p : Char → Bool} {l₁ : Chars} (l₂ : Chars)
    (h : ∀ c ∈ l₁, p c = true) :
    (l₁ ++ l₂).takeWhile p = l₁ ++ l₂.takeWhile p := by
  induction l₁ with
  | nil => simp
  | cons a tl ih =>
    have ha : p a = true := h a (by simp)
    simp only [List.cons_append, List.takeWhile_cons, ha, if_true]
    rw [ih fun c hc => h c (by simp [hc])]

theorem takeWhile_cons_neg {p : Char → Bool} {c : Char} (h : p c = false)
    (l : Chars) : (c :: l).takeWhile p = [] := by
  simp [List.takeWhile_cons, h]

theorem scanOpt_cons_none {f : Chars → Option Chars} {c : Char} {l : Chars}
    (h : f (c :: l) = none) : scanOpt f (c :: l) = scanOpt f l := by
  simp [scanOpt, h]

/-! ## Claim theorems -/

/-- C4: while the external credentials (API key or base id) are absent, the
persistence operations `addCandidate`, `getCandidate`, `getAllCandidates`
and `updateCandidate` all return their mock/stub results and none of them
returns an error. -/
theorem c4_missing_credentials_mock (apiKey baseId : Option String)
    (store : ATStore) (now id : String) (fields : Fields)
    (h : apiKey = none ∨ baseId = none) :
    mkBase apiKey baseId store = none ∧
    addCandidate (mkBase apiKey baseId store) now fields =
      Except.ok { id := "mock_" ++ now, fields := fields } ∧
    getCandidate (mkBase apiKey baseId store) id =
      Except.ok mockCandidateFields ∧
    getAllCandidates (mkBase apiKey baseId store) =
      Except.ok [{ id := "mock_1", fields := mockCandidateFields }] ∧
    updateCandidate (mkBase apiKey baseId store) id fields =
      Except.ok (fields, none) := by
  have hb : mkBase apiKey baseId store = none := by
    rcases h with h | h <;> simp [mkBase, h]
  refine ⟨hb, ?_, ?_, ?_, ?_⟩ <;> rw [hb] <;> rfl

/-- Witness for C4 at concrete inputs. -/
theorem c4_missing_credentials_mock_witness :
    ((some "key" : Option String) = none ∨ (none : Option String) = none) ∧
    (mkBase (some "key") none [] = none ∧
     addCandidate (mkBase (some "key") none []) "17" [("Name", "A")] =
       Except.ok { id := "mock_17", fields := [("Name", "A")] } ∧
     getCandidate (mkBase (some "key") none []) "rec9" =
       Except.ok mockCandidateFields ∧
     getAllCandidates (mkBase (some "key") none []) =
       Except.ok [{ id := "mock_1", fields := mockCandidateFields }] ∧
     updateCandidate (mkBase (some "key") none []) "rec9" [("Name", "A")] =
       Except.ok ([("Name", "A")], none)) :=
  ⟨Or.inr rfl,
   c4_missing_credentials_mock (some "key") none [] "17" "rec9"
     [("Name", "A")] (Or.inr rfl)⟩

/-- C7: on the input text `"5 years of experience"`, the years-of-experience
heuristic (and the corresponding field of the parsed record) yields exactly
the string `"5 years"`. -/
theorem c7_years_of_experience :
    extractYearsOfExperience "5 years of experience" = "5 years" ∧
    (parseResumeText "5 years of experience").yearsOfExperience = "5 years" :=
  ⟨rfl, rfl⟩

/-- C8 (amended): the extracted skills field is the comma-joined list of the
vocabulary keywords that whole-word-match the text case-insensitively, in
vocabulary order and with the multiplicity of their vocabulary listings; a
keyword is in the hit list if and only if it is in the vocabulary and
matches the text. -/
theorem c8_skills_membership (text sk : String) :
    extractSkills text = String.intercalate ", " (foundSkills text) ∧
    (sk ∈ foundSkills text ↔
      sk ∈ skillVocabulary ∧ wordMatch sk.data text.data = true) := by
  refine ⟨rfl, ?_⟩
  simp [foundSkills, List.mem_filter]

/-- C8 counterexample: the input `"Docker"` produces the output
`"Docker, Docker"` — the keyword `Docker` is listed in two vocabulary
categories, so the output is not duplicate-free and is not the plain union
of the matching keywords. -/
theorem c8_skills_counterexample :
    extractSkills "Docker" = "Docker, Docker" ∧
    foundSkills "Docker" = ["Docker", "Docker"] ∧
    ¬ (foundSkills "Docker").Nodup := by
  refine ⟨rfl, rfl, by decide⟩

/-- C9 (amended): when the salary string matches the currency pattern
`/\$?([\d,]+)/` and the matched group contains at least one digit, the
persisted number is the integer given by the group's digits with commas
removed; when the string is empty or has no match, `null` is persisted.
(When the group is commas-only the code instead persists `parseInt('')`,
i.e. `NaN` — see the counterexample.) -/
theorem c9_salary_conversion (s : String) (g : Chars)
    (hm : salaryMatchGroup s.data = some g)
    (hd : (g.filter Char.isDigit).isEmpty = false) :
    computeExpectedSalaryValue s =
      some (JsNum.int (digitsToNat (g.filter Char.isDigit))) ∧
    computeExpectedSalaryValue "" = none ∧
    (∀ s2 : String, salaryMatchGroup s2.data = none →
      computeExpectedSalaryValue s2 = none) := by
  have hs : ¬ s = "" := by
    intro h
    rw [h] at hm
    simp [salaryMatchGroup] at hm
  refine ⟨?_, rfl, ?_⟩
  · unfold computeExpectedSalaryValue
    rw [if_neg hs, hm]
    simp [hd]
  · intro s2 h2
    unfold computeExpectedSalaryValue
    by_cases h0 : s2 = ""
    · simp [h0]
    · rw [if_neg h0, h2]

/-- Witness for C9 at the input `"$85,000"`, which persists `85000`. -/
theorem c9_salary_conversion_witness :
    salaryMatchGroup ("$85,000".data) = some ("85,000".data) ∧
    (((("85,000".data)).filter Char.isDigit).isEmpty = false) ∧
    (computeExpectedSalaryValue "$85,000" =
       some (JsNum.int (digitsToNat (("85,000".data).filter Char.isDigit))) ∧
     computeExpectedSalaryValue "" = none ∧
     (∀ s2 : String, salaryMatchGroup s2.data = none →
       computeExpectedSalaryValue s2 = none)) ∧
    computeExpectedSalaryValue "$85,000" = some (JsNum.int 85000) :=
  ⟨rfl, rfl, c9_salary_conversion "$85,000" ("85,000".data) rfl rfl, rfl⟩

/-- C9 counterexample: the string `","` matches the currency pattern, yet
the persisted value is `NaN` rather than an integer (and not `null`). -/
theorem c9_salary_counterexample :
    salaryMatchGroup (",".data) = some (",".data) ∧
    computeExpectedSalaryValue "," = some JsNum.nan ∧
    ((computeExpectedSalaryValue ",").getD JsNum.nan).isInt = false ∧
    computeExpectedSalaryValue "," ≠ none :=
  ⟨rfl, rfl, rfl, by decide⟩

/-- C1 (amended): when AI parsing is unavailable (or fails) and `pdf-parse`
returns text whose trimmed length is at most 50, POST /upload answers
HTTP 200 with an all-empty record whose `parsingMethod` field is absent
(the response-level `parsingMethod` is the constant `'Universal Parser'`);
when `pdf-parse` itself throws, the route answers HTTP 500, not 200. -/
theorem c1_exhausted_strategies (e : UploadEnv) (t : String)
    (hai : e.openaiAvailable = false ∨ e.aiResult = none)
    (hp : e.pdfParseText = some t)
    (hlen : (jsTrim t).length ≤ 50) :
    (uploadRoute e).status = 200 ∧
    (uploadRoute e).parsingMethod = some "Universal Parser" ∧
    (uploadRoute e).data = some (minimalRecord t) ∧
    (minimalRecord t).name = "" ∧ (minimalRecord t).email = "" ∧
    (minimalRecord t).phone = "" ∧ (minimalRecord t).skills = "" ∧
    (minimalRecord t).education = "" ∧ (minimalRecord t).experience = "" ∧
    (minimalRecord t).location = "" ∧ (minimalRecord t).linkedinUrl = "" ∧
    (minimalRecord t).expectedSalary = "" ∧ (minimalRecord t).summary = "" ∧
    (minimalRecord t).areasOfExpertise = "" ∧
    (minimalRecord t).qualifications = "" ∧ (minimalRecord t).languages = "" ∧
    (minimalRecord t).currentJobTitle = "" ∧
    (minimalRecord t).yearsOfExperience = "" ∧
    (minimalRecord t).resumeText = t ∧
    (minimalRecord t).parsingMethod = none ∧
    (∀ e2 : UploadEnv, (e2.openaiAvailable = false ∨ e2.aiResult = none) →
      e2.pdfParseText = none → (uploadRoute e2).status = 500) := by
  have hnot : ¬ 50 < (jsTrim t).length := by omega
  have hparse : parseResumeUniversally e = Except.ok (minimalRecord t) := by
    unfold parseResumeUniversally
    rw [hp]
    simp only [hnot, if_false]
    rcases hai with hai | hai
    · rw [hai]; simp
    · rw [hai]
      cases e.openaiAvailable <;> simp
  have h500 : ∀ e2 : UploadEnv,
      (e2.openaiAvailable = false ∨ e2.aiResult = none) →
      e2.pdfParseText = none → (uploadRoute e2).status = 500 := by
    intro e2 hai2 hp2
    have hparse2 : parseResumeUniversally e2 = Except.error () := by
      unfold parseResumeUniversally
      rw [hp2]
      rcases hai2 with hai2 | hai2
      · rw [hai2]; simp
      · rw [hai2]
        cases e2.openaiAvailable <;> simp
    unfold uploadRoute
    rw [hparse2]
  unfold uploadRoute
  rw [hparse]
  exact ⟨rfl, rfl, rfl, rfl, rfl, rfl, rfl, rfl, rfl, rfl, rfl, rfl, rfl,
    rfl, rfl, rfl, rfl, rfl, rfl, rfl, h500⟩

/-- Environment for the C1 instances: no AI, empty extracted text. -/
def noTextEnv : UploadEnv :=
  { openaiAvailable := false, aiResult := none, pdfParseText := some "",
    newCandidateId := "c1" }

/-- Environment for the C1 instances: no AI, `pdf-parse` throws. -/
def throwEnv : UploadEnv :=
  { openaiAvailable := false, aiResult := none, pdfParseText := none,
    newCandidateId := "c1" }

/-- Witness for C1 at a concrete environment with empty extracted text. -/
theorem c1_exhausted_strategies_witness :
    (noTextEnv.openaiAvailable = false ∨ noTextEnv.aiResult = none) ∧
    noTextEnv.pdfParseText = some "" ∧
    (jsTrim "").length ≤ 50 ∧
    (uploadRoute noTextEnv).status = 200 :=
  ⟨Or.inl rfl, rfl, by decide,
   (c1_exhausted_strategies noTextEnv "" (Or.inl rfl) rfl (by decide)).1⟩

/-- C1 counterexample: with no AI and empty extracted text the route does
answer 200, but the returned record's `parsingMethod` is absent — not the
string `'Fallback'` the claim requires; and when extraction throws, the
route answers 500, not 200. -/
theorem c1_fallback_counterexample :
    (uploadRoute noTextEnv).data = some (minimalRecord "") ∧
    (minimalRecord "").parsingMethod = none ∧
    (none : Option String) ≠ some "Fallback" ∧
    (uploadRoute throwEnv).status = 500 ∧
    (500 : Nat) ≠ 200 :=
  ⟨rfl, rfl, by decide, rfl, by decide⟩

/-- C2 (amended): when AI parsing is unavailable (or fails) and `pdf-parse`
extracts more than 50 characters of trimmed text — the selectable-text-layer
case — the route uses the directly extracted text for field parsing
(`data = parseResumeText t`, whose `resumeText` is the extracted text), but
the `parsingMethod` field of the response is the fixed constant
`'Universal Parser'`, not an identifier of the extraction method. -/
theorem c2_direct_extraction (e : UploadEnv) (t : String)
    (hai : e.openaiAvailable = false ∨ e.aiResult = none)
    (hp : e.pdfParseText = some t)
    (hlen : 50 < (jsTrim t).length) :
    (uploadRoute e).status = 200 ∧
    (uploadRoute e).data = some (parseResumeText t) ∧
    (parseResumeText t).resumeText = t ∧
    (uploadRoute e).parsingMethod = some "Universal Parser" := by
  have hparse : parseResumeUniversally e = Except.ok (parseResumeText t) := by
    unfold parseResumeUniversally
    rw [hp]
    simp only [hlen, if_true]
    rcases hai with hai | hai
    · rw [hai]; simp
    · rw [hai]
      cases e.openaiAvailable <;> simp
  unfold uploadRoute
  rw [hparse]
  exact ⟨rfl, rfl, rfl, rfl⟩

/-- A text layer longer than 50 characters, for the C2 instances. -/
def longLayer : String :=
  "This resume text layer contains well over fifty characters of text."

/-- Environment for the C2 instances: no AI, long text layer. -/
def directTextEnv : UploadEnv :=
  { openaiAvailable := false, aiResult := none, pdfParseText := some longLayer,
    newCandidateId := "c2" }

/-- Environment for the C2 counterexample: AI parsing succeeds. -/
def aiParsedEnv : UploadEnv :=
  { openaiAvailable := true,
    aiResult := some { name := "AI Person", resumeText := "AI" },
    pdfParseText := some longLayer, newCandidateId := "c2" }

/-- Witness for C2 at a concrete environment with a long text layer. -/
theorem c2_direct_extraction_witness :
    (directTextEnv.openaiAvailable = false ∨ directTextEnv.aiResult = none) ∧
    directTextEnv.pdfParseText = some longLayer ∧
    50 < (jsTrim longLayer).length ∧
    (uploadRoute directTextEnv).parsingMethod = some "Universal Parser" :=
  ⟨Or.inl rfl, rfl, by decide,
   (c2_direct_extraction directTextEnv longLayer (Or.inl rfl) rfl
     (by decide)).2.2.2⟩

/-- C2 counterexample: the response-level `parsingMethod` equals the same
constant `'Universal Parser'` both when the AI parser produced the record
and when direct `pdf-parse` text extraction did, even though the returned
data differs — so the field does not identify the extraction method. -/
theorem c2_constant_method_counterexample :
    (uploadRoute aiParsedEnv).parsingMethod = some "Universal Parser" ∧
    (uploadRoute directTextEnv).parsingMethod = some "Universal Parser" ∧
    ((uploadRoute aiParsedEnv).data.map CandidateRecord.resumeText) =
      some "AI" ∧
    ((uploadRoute directTextEnv).data.map CandidateRecord.resumeText) =
      some longLayer ∧
    (some "AI" : Option String) ≠ some longLayer :=
  ⟨rfl, rfl, rfl, rfl, by decide⟩

/-- Environment with no extraction results and a steven-matching file name. -/
def stevenNamedEnv : CascadeEnv :=
  { fileName := "steven.pdf", s1 := none, s2 := none, s3 := none, ai := none,
    ocr := none, structRes := none, openaiK := false, enhance := none }

/-- The same environment under a neutral file name. -/
def otherNamedEnv : CascadeEnv :=
  { fileName := "resume.pdf", s1 := none, s2 := none, s3 := none, ai := none,
    ocr := none, structRes := none, openaiK := false, enhance := none }

/-- C10: whenever no meaningful text was extracted and the lowercased base
file name contains `steven` or `sales`, the cascade returns the fixed
hardcoded record (name `Steven Soricillo`, `parsingMethod`
`'Hardcoded Data'`); consequently two environments with identical extraction
results but different file names yield different parse results. -/
theorem c10_hardcoded_by_filename (e : CascadeEnv)
    (h1 : hasMeaningfulText (phase1 e).1 = false)
    (h2 : stevenFileHit e.fileName = true) :
    parseResumeUniversal e = CascadeOutcome.steven ∧
    getStevenResumeData.name = "Steven Soricillo" ∧
    getStevenResumeData.parsingMethod = some "Hardcoded Data" ∧
    getStevenResumeData.name ≠ "" ∧
    parseResumeUniversal stevenNamedEnv = CascadeOutcome.steven ∧
    parseResumeUniversal otherNamedEnv = CascadeOutcome.fallbackRecord ∧
    stevenNamedEnv.s1 = otherNamedEnv.s1 ∧
    stevenNamedEnv.s2 = otherNamedEnv.s2 ∧
    stevenNamedEnv.s3 = otherNamedEnv.s3 ∧
    CascadeOutcome.steven ≠ CascadeOutcome.fallbackRecord := by
  refine ⟨?_, rfl, rfl, by decide, rfl, rfl, rfl, rfl, rfl, by decide⟩
  simp only [parseResumeUniversal]
  rw [h1, h2]
  rfl

/-- Witness for C10 at the steven-named environment. -/
theorem c10_hardcoded_by_filename_witness :
    hasMeaningfulText (phase1 stevenNamedEnv).1 = false ∧
    stevenFileHit stevenNamedEnv.fileName = true ∧
    parseResumeUniversal stevenNamedEnv = CascadeOutcome.steven :=
  ⟨rfl, rfl,
   (c10_hardcoded_by_filename stevenNamedEnv rfl rfl).1⟩

/-- The cascade's result depends on its environment only through the
extraction phase and the non-extraction fields. -/
theorem parseResumeUniversal_congr (e e' : CascadeEnv)
    (hp : phase1 e' = phase1 e) (hf : e'.fileName = e.fileName)
    (hai : e'.ai = e.ai) (ho : e'.ocr = e.ocr) (hs : e'.structRes = e.structRes)
    (hk : e'.openaiK = e.openaiK) (he : e'.enhance = e.enhance) :
    parseResumeUniversal e' = parseResumeUniversal e := by
  simp only [parseResumeUniversal, afterTextOutcome]
  rw [hp, hf, hai, ho, hs, hk, he]

/-- Helper for C3: when strategy 1 passes its check, the extraction phase
retains exactly the pdf-parse text with method tag `pdf-parse`. -/
theorem phase1_of_pass1 (e : CascadeEnv) (t1 : String)
    (h1 : e.s1 = some t1) (h2 : pass1 t1 = true) :
    phase1 e = (t1, "pdf-parse") := by
  have h50 : ¬ t1.length < 50 := by
    have h2' := h2
    simp only [pass1, Bool.and_eq_true, decide_eq_true_eq] at h2'
    omega
  simp only [phase1]
  rw [h1]
  simp only [h2, if_true]
  simp [h50]

/-- C3 (amended): the cascade tries pdf-parse, PDF.js, raw-binary scraping
and only then the image-based fallbacks, but the keep/retry condition is not
uniform: pdf-parse output is kept iff it exceeds 50 characters and lacks the
two markers `0 obj` and `FlateDecode` (in which case the later strategies
are never consulted and cannot change the result), while PDF.js output is
adopted whenever it is merely longer than the current text and raw-binary
output whenever it is nonempty. -/
theorem c3_first_pass_short_circuits (e : CascadeEnv) (t1 : String)
    (h1 : e.s1 = some t1) (h2 : pass1 t1 = true) :
    phase1 e = (t1, "pdf-parse") ∧
    ∀ x y : Option String,
      parseResumeUniversal { e with s2 := x, s3 := y } =
        parseResumeUniversal e := by
  have hA := phase1_of_pass1 e t1 h1 h2
  refine ⟨hA, ?_⟩
  intro x y
  have hB := phase1_of_pass1 { e with s2 := x, s3 := y } t1 h1 h2
  exact parseResumeUniversal_congr _ _ (hB.trans hA.symm) rfl rfl rfl rfl rfl rfl

/-- Environment for the C3 witness: clean pdf-parse text over 50 chars. -/
def passEnv : CascadeEnv :=
  { fileName := "resume.pdf", s1 := some longLayer, s2 := none, s3 := none,
    ai := none, ocr := none, structRes := none, openaiK := false,
    enhance := none }

/-- Witness for C3 at a concrete passing environment. -/
theorem c3_first_pass_short_circuits_witness :
    passEnv.s1 = some longLayer ∧ pass1 longLayer = true ∧
    phase1 passEnv = (longLayer, "pdf-parse") :=
  ⟨rfl, by decide,
   (c3_first_pass_short_circuits passEnv longLayer rfl (by decide)).1⟩

/-- Environment in which pdf-parse throws and PDF.js yields 11 characters. -/
def pdfjsShortEnv : CascadeEnv :=
  { fileName := "resume.pdf", s1 := none, s2 := some "short text!", s3 := none,
    ai := none, ocr := none, structRes := none, openaiK := false,
    enhance := none }

/-- C3 counterexample: PDF.js output of length 11 — far below the 50
character threshold — is retained as the final extracted text and parsed
into fields, refuting the claim that a method's output is kept only if its
length exceeds the threshold. -/
theorem c3_cascade_counterexample :
    phase1 pdfjsShortEnv = ("short text!", "PDF.js") ∧
    "short text!".length < 50 ∧
    parseResumeUniversal pdfjsShortEnv =
      CascadeOutcome.textParsed (cleanExtractedText "short text!") "PDF.js" ∧
    cleanExtractedText "short text!" = "short text!" :=
  ⟨rfl, by decide, rfl, rfl⟩

/-! ## C5 : update round-trip -/

theorem find?_append_fields {p : (String × String) → Bool} (l₁ l₂ : Fields) :
    (l₁ ++ l₂).find? p = ((l₁.find? p).orElse fun _ => l₂.find? p) := by
  induction l₁ with
  | nil => simp
  | cons a tl ih =>
    by_cases h : p a
    · simp [List.find?_cons_of_pos, h]
    · simp only [List.cons_append]
      rw [List.find?_cons_of_neg _ (by simpa using h),
        List.find?_cons_of_neg _ (by simpa using h), ih]

theorem lookup_merge_of_lookup (o upd : Fields) (k v : String)
    (h : lookupField upd k = some v) :
    lookupField (mergeFields o upd) k = some v := by
  unfold lookupField mergeFields at *
  rw [find?_append_fields]
  cases hf : upd.find? fun p => p.1 = k with
  | none => rw [hf] at h; simp at h
  | some pr =>
    rw [hf] at h
    simp only [Option.orElse, hf]
    exact h

theorem find_key_filter (o : Fields) (pred : (String × String) → Bool)
    (k : String) (h : ∀ x ∈ o, x.1 = k → pred x = true) :
    (o.filter pred).find? (fun p => p.1 = k) =
      o.find? fun p => p.1 = k := by
  induction o with
  | nil => rfl
  | cons a tl ih =>
    by_cases hk : a.1 = k
    · have hp : pred a = true := h a (by simp) hk
      rw [List.filter_cons_of_pos hp,
        List.find?_cons_of_pos _ (by simpa using hk),
        List.find?_cons_of_pos _ (by simpa using hk)]
    · have ih' := ih fun x hx => h x (by simp [hx])
      by_cases hp : pred a
      · rw [List.filter_cons_of_pos hp,
          List.find?_cons_of_neg _ (by simpa using hk),
          List.find?_cons_of_neg _ (by simpa using hk), ih']
      · rw [List.filter_cons_of_neg (by simpa using hp),
          List.find?_cons_of_neg _ (by simpa using hk), ih']

theorem lookup_merge_frame (o upd : Fields) (k : String)
    (h : (upd.all fun q => q.1 ≠ k) = true) :
    lookupField (mergeFields o upd) k = lookupField o k := by
  unfold lookupField mergeFields
  rw [find?_append_fields]
  have hnone : (upd.find? fun p => p.1 = k) = none := by
    rw [List.find?_eq_none]
    intro x hx
    have hne := (List.all_eq_true.mp h) x hx
    simpa using hne
  rw [hnone]
  simp only [Option.orElse]
  refine congrArg _ (find_key_filter o _ k fun x hx hxk => ?_)
  rw [hxk]
  exact h

theorem find_map_update (store : ATStore) (id : String) (rec : ATRecord)
    (g : ATRecord → ATRecord) (hg : ∀ r, (g r).id = r.id)
    (h : (store.find? fun r => r.id = id) = some rec) :
    ((store.map g).find? fun r => r.id = id) = some (g rec) := by
  induction store with
  | nil => simp at h
  | cons a tl ih =>
    simp only [List.map_cons]
    by_cases hk : a.id = id
    · have hk' : (g a).id = id := by rw [hg a]; exact hk
      rw [List.find?_cons_of_pos _ (by simpa using hk')]
      rw [List.find?_cons_of_pos _ (by simpa using hk)] at h
      have : a = rec := by simpa using h
      rw [this]
    · have hk' : ¬ (g a).id = id := by rw [hg a]; exact hk
      rw [List.find?_cons_of_neg _ (by simpa using hk')]
      rw [List.find?_cons_of_neg _ (by simpa using hk)] at h
      exact ih h

/-- C5 (amended): against a configured store (modelled from the spec as
CRUD by record id with merge-updates), PUT /candidate/:id answers 200 with
the merged field set, applies exactly the named fields, leaves every field
not named in the update unchanged, and the update can be read back through
GET /candidate/:id; without credentials the update is not persisted and
GET returns a fixed mock record (see the counterexample). -/
theorem c5_update_roundtrip (store : ATStore) (id : String) (rec : ATRecord)
    (upd : Fields) (h : (store.find? fun r => r.id = id) = some rec) :
    (putCandidateRoute (some store) id upd).1 = 200 ∧
    (putCandidateRoute (some store) id upd).2.1 =
      some (mergeFields rec.fields upd) ∧
    (∀ k v, lookupField upd k = some v →
      lookupField (mergeFields rec.fields upd) k = some v) ∧
    (∀ k, (upd.all fun q => q.1 ≠ k) = true →
      lookupField (mergeFields rec.fields upd) k = lookupField rec.fields k) ∧
    getCandidateRoute (putCandidateRoute (some store) id upd).2.2 id =
      (200, some (mergeFields rec.fields upd)) := by
  have hupd : updateCandidate (some store) id upd =
      Except.ok (mergeFields rec.fields upd,
        some (store.map fun q =>
          if q.id = id then { q with fields := mergeFields rec.fields upd }
          else q)) := by
    unfold updateCandidate
    dsimp only
    rw [h]
  have hput : putCandidateRoute (some store) id upd =
      (200, some (mergeFields rec.fields upd),
        some (store.map fun q =>
          if q.id = id then { q with fields := mergeFields rec.fields upd }
          else q)) := by
    unfold putCandidateRoute
    rw [hupd]
  refine ⟨by rw [hput], by rw [hput], ?_, ?_, ?_⟩
  · exact fun k v hv => lookup_merge_of_lookup rec.fields upd k v hv
  · exact fun k hk => lookup_merge_frame rec.fields upd k hk
  · rw [hput]
    have hrecid : rec.id = id := by
      have := List.find?_some h
      simpa using this
    have hfind := find_map_update store id rec
      (fun q => if q.id = id then { q with fields := mergeFields rec.fields upd } else q)
      (fun r => by by_cases hq : r.id = id <;> simp [hq]) h
    unfold getCandidateRoute getCandidate
    dsimp only
    rw [hfind]
    dsimp only
    rw [if_pos hrecid]

/-- A one-record store for the C5 witness. -/
def sampleStore : ATStore :=
  [{ id := "rec1", fields := [("Name", "Bob"), ("Phone", "555")] }]

/-- Witness for C5 at a concrete store and a partial update of `Name`. -/
theorem c5_update_roundtrip_witness :
    (sampleStore.find? fun r => r.id = "rec1") =
      some { id := "rec1", fields := [("Name", "Bob"), ("Phone", "555")] } ∧
    mergeFields [("Name", "Bob"), ("Phone", "555")] [("Name", "Alice")] =
      [("Name", "Alice"), ("Phone", "555")] ∧
    getCandidateRoute
        (putCandidateRoute (some sampleStore) "rec1" [("Name", "Alice")]).2.2
        "rec1" =
      (200, some (mergeFields [("Name", "Bob"), ("Phone", "555")]
        [("Name", "Alice")])) :=
  ⟨rfl, rfl,
   (c5_update_roundtrip sampleStore "rec1"
     { id := "rec1", fields := [("Name", "Bob"), ("Phone", "555")] }
     [("Name", "Alice")] rfl).2.2.2.2⟩

/-- C5 counterexample: without credentials, PUT echoes the update back with
status 200 but persists nothing, and the following GET returns the fixed
mock record — the updated value cannot be read back. -/
theorem c5_mock_no_roundtrip :
    (putCandidateRoute none "rec1" [("Name", "Alice")]).1 = 200 ∧
    (putCandidateRoute none "rec1" [("Name", "Alice")]).2.1 =
      some [("Name", "Alice")] ∧
    getCandidateRoute (putCandidateRoute none "rec1" [("Name", "Alice")]).2.2
        "rec1" =
      (200, some mockCandidateFields) ∧
    lookupField mockCandidateFields "Name" = some "Mock Candidate" ∧
    (some "Mock Candidate" : Option String) ≠ some "Alice" :=
  ⟨rfl, rfl, rfl, rfl, by decide⟩

/-! ## C6 : email extraction -/

theorem scanOpt_self {f : Chars → Option Chars} {l m : Chars}
    (h : f l = some m) : scanOpt f l = some m := by
  cases l <;> simp [scanOpt, h]

/-- Backtracking step of the email domain when the lookahead character is
not a dot. -/
theorem emailDomBT_step_neg {d rest : Chars} {k : Nat}
    (h : ¬ (d.drop (k + 1) ++ rest).head? = some '.') :
    emailDomBT d rest (k + 1) = emailDomBT d rest k := by
  simp only [emailDomBT]
  rw [if_neg h]

/-- Successful step of the email-domain backtracking. -/
theorem emailDomBT_step_pos {d rest : Chars} {k : Nat}
    (h : (d.drop (k + 1) ++ rest).head? = some '.')
    (h2 : 2 ≤ (((d.drop (k + 1) ++ rest).drop 1).takeWhile Char.isAlpha).length) :
    emailDomBT d rest (k + 1) =
      some (d.take (k + 1) ++ '.' ::
        ((d.drop (k + 1) ++ rest).drop 1).takeWhile Char.isAlpha) := by
  simp only [emailDomBT]
  rw [if_pos h, if_pos h2]

/-- The email regex anchored at the occurrence of `john@example.com`
matches exactly that substring, provided the following character (if any)
is outside the domain character class. -/
theorem emailMatchAt_john (suf : Chars)
    (hsuf : ∀ c, suf.head? = some c → emailDomainChar c = false) :
    emailMatchAt (("john@example.com".data) ++ suf) =
      some ("john@example.com".data) := by
  have hTWdom : suf.takeWhile emailDomainChar = [] := by
    cases suf with
    | nil => rfl
    | cons c cs => exact takeWhile_cons_neg (hsuf c rfl) cs
  have hTWalpha : suf.takeWhile Char.isAlpha = [] := by
    cases suf with
    | nil => rfl
    | cons c cs =>
      refine takeWhile_cons_neg ?_ cs
      have hc := hsuf c rfl
      by_cases ha : c.isAlpha
      · exfalso
        have hd : emailDomainChar c = true := by
          simp [emailDomainChar, Char.isAlphanum, ha]
        rw [hd] at hc
        exact Bool.noConfusion hc
      · simpa using ha
  have hHead : ¬ suf.head? = some '.' := by
    intro hh
    have := hsuf '.' hh
    simp [emailDomainChar] at this
  have hsplit : ("john@example.com".data) ++ suf =
      ("john".data) ++ ('@' :: (("example.com".data) ++ suf)) := rfl
  have hloc : (("john@example.com".data) ++ suf).takeWhile emailLocalChar =
      "john".data := by
    rw [hsplit, takeWhile_append_all _ (by decide),
      takeWhile_cons_neg (by decide : emailLocalChar '@' = false)]
    simp
  have hr1 : (("john@example.com".data) ++ suf).drop (("john".data).length) =
      '@' :: (("example.com".data) ++ suf) := rfl
  have hd : ((("example.com".data) ++ suf)).takeWhile emailDomainChar =
      "example.com".data := by
    rw [takeWhile_append_all _ (by decide), hTWdom]
    simp
  have hls : ((("com".data) ++ suf)).takeWhile Char.isAlpha = "com".data := by
    rw [takeWhile_append_all _ (by decide), hTWalpha]
    simp
  have hdrop2 : ((("example.com".data) ++ suf)).drop
      (("example.com".data).length) = suf := by
    simp
  have hBT : emailDomBT ("example.com".data) suf
      (("example.com".data).length) = some ("example.com".data) := by
    show emailDomBT ("example.com".data) suf 11 = some ("example.com".data)
    rw [emailDomBT_step_neg (by simpa using hHead)]
    rw [emailDomBT_step_neg (by simp)]
    rw [emailDomBT_step_neg (by simp)]
    rw [emailDomBT_step_neg (by simp)]
    rw [emailDomBT_step_pos (by rfl) ?_]
    · show some ((("example".data) : Chars) ++ '.' ::
        ((("com".data) ++ suf).takeWhile Char.isAlpha)) =
          some ("example.com".data)
      rw [hls]
      rfl
    · show 2 ≤ ((("com".data) ++ suf).takeWhile Char.isAlpha).length
      rw [hls]
      decide
  simp only [emailMatchAt]
  rw [hloc]
  rw [show (("john".data) : Chars).isEmpty = false from rfl]
  rw [hr1]
  rw [show ('@' :: (("example.com".data) ++ suf)).head? = some '@' from rfl]
  simp only [Bool.false_eq_true, if_false, if_pos]
  rw [show ('@' :: (("example.com".data) ++ suf)).drop 1 =
    ("example.com".data) ++ suf from rfl]
  rw [hd, hdrop2, hBT]
  rfl

/-- C6 (amended): whenever `john@example.com` occurs in the text preceded
only by characters outside the email local-part class and followed by a
character outside the domain class (or nothing), the extracted email is
exactly `john@example.com`; in general the heuristic returns the leftmost
match of the email regex, which need not be the given address (see the
counterexample). -/
theorem c6_email_extraction (pre suf : Chars)
    (hpre : ∀ c ∈ pre, emailLocalChar c = false)
    (hsuf : ∀ c, suf.head? = some c → emailDomainChar c = false) :
    extractEmail (String.mk (pre ++ ("john@example.com".data) ++ suf)) =
      "john@example.com" ∧
    (parseResumeText
        (String.mk (pre ++ ("john@example.com".data) ++ suf))).email =
      "john@example.com" := by
  have hscan : scanOpt emailMatchAt
      (pre ++ ("john@example.com".data) ++ suf) =
      some ("john@example.com".data) := by
    induction pre with
    | nil =>
      simp only [List.nil_append]
      exact scanOpt_self (emailMatchAt_john suf hsuf)
    | cons c tl ih =>
      have hc : emailLocalChar c = false := hpre c (by simp)
      have hnone :
          emailMatchAt ((c :: tl) ++ ("john@example.com".data) ++ suf) =
            none := by
        simp only [emailMatchAt, List.cons_append, takeWhile_cons_neg hc]
        rfl
      rw [List.cons_append, List.cons_append]
      rw [scanOpt_cons_none (by simpa using hnone)]
      exact ih fun c2 hc2 => hpre c2 (by simp [hc2])
  have he : extractEmail
      (String.mk (pre ++ ("john@example.com".data) ++ suf)) =
      "john@example.com" := by
    unfold extractEmail
    rw [show (String.mk (pre ++ ("john@example.com".data) ++ suf)).data =
      pre ++ ("john@example.com".data) ++ suf from rfl]
    rw [hscan]
    rfl
  refine ⟨he, ?_⟩
  show jsTrim (extractEmail
    (String.mk (pre ++ ("john@example.com".data) ++ suf))) =
    "john@example.com"
  rw [he]
  rfl

/-- Witness for C6 with a space on both sides of the address. -/
theorem c6_email_extraction_witness :
    (∀ c ∈ ([' '] : Chars), emailLocalChar c = false) ∧
    (∀ c : Char, ([' '] : Chars).head? = some c → emailDomainChar c = false) ∧
    extractEmail (String.mk ([' '] ++ ("john@example.com".data) ++ [' '])) =
      "john@example.com" := by
  have h1 : ∀ c ∈ ([' '] : Chars), emailLocalChar c = false := by decide
  have h2 : ∀ c : Char, ([' '] : Chars).head? = some c →
      emailDomainChar c = false := by
    intro c hc
    have : c = ' ' := by simpa using hc.symm
    rw [this]
    rfl
  exact ⟨h1, h2, (c6_email_extraction [' '] [' '] h1 h2).1⟩

/-- C6 counterexample: the text `"a@b.co john@example.com"` contains the
address, but the heuristic returns the earlier match `a@b.co`. -/
theorem c6_email_counterexample :
    jsIncludes ("john@example.com".data) ("a@b.co john@example.com".data) =
      true ∧
    extractEmail "a@b.co john@example.com" = "a@b.co" ∧
    ("a@b.co" : String) ≠ "john@example.com" :=
  ⟨rfl, rfl, by decide⟩

end ResumeSpec
